import Mathlib

/-!
Verification of `tap_gorgias/streams.py` against its specification.

This file gives a shallow embedding of the stream classes of
`tap_gorgias/streams.py`: JSON values are an inductive type whose objects are
insertion-ordered association lists (mirroring CPython dicts), fallible Python
code is embedded in `Except PyError`, and the per-stream declarations
(`name`, `path`, `primary_keys`, `replication_key`, `state_partitioning_keys`)
become a `StreamDef` record.  The response-reshaping methods
`TicketDetailsStream.parse_response`, `TicketDetailsStream.post_process`,
`TicketDetailsStream.get_url_params` and `TicketsStream.get_child_context`
are translated statement by statement.
-/

namespace TapGorgias

/-- JSON values as decoded by `response.json()`.  Objects keep their fields in
insertion order, as CPython dicts do. -/
inductive Json where
  | null
  | bool (b : Bool)
  | num (n : Int)
  | str (s : String)
  | arr (elems : List Json)
  | obj (fields : List (String × Json))

/-- The Python exceptions the embedded methods can raise. -/
inductive PyError where
  | keyError (k : String)
  | typeError (msg : String)
deriving DecidableEq

/-- Python `d[key]` on a dict: the first binding with the given key. -/
def getField : List (String × Json) → String → Option Json
  | [], _ => none
  | (k, v) :: fs, key => if k = key then some v else getField fs key

/-- Python `d[key] = val` on a dict: replace the existing binding in place,
otherwise append a new binding at the end. -/
def setField : List (String × Json) → String → Json → List (String × Json)
  | [], key, val => [(key, val)]
  | (k, v) :: fs, key, val =>
      if k = key then (k, val) :: fs else (k, v) :: setField fs key val

/-- Python `d.pop(key)` / `d.pop(key, None)` on a dict, as far as the mapping
is concerned: drop the binding with the given key, if any. -/
def popField : List (String × Json) → String → List (String × Json)
  | [], _ => []
  | (k, v) :: fs, key => if k = key then fs else (k, v) :: popField fs key

/-- Python `list(d.keys())`: the keys in insertion order. -/
def keysOf (fs : List (String × Json)) : List String := fs.map Prod.fst

/-- Python `v == "lit"` for a decoded JSON value `v` and a string literal:
true exactly when `v` is that string. -/
def jsonEqStr (v : Json) (lit : String) : Bool :=
  match v with
  | .str s => s == lit
  | _ => false

/-! ## `TicketDetailsStream.parse_response` (streams.py lines 217-232) -/

/-- One iteration of the `for key in list(resp["customer"]["integrations"].keys())`
loop body of `parse_response`, acting on the current integrations dict `d`:

```python
if resp["customer"]["integrations"][key]["__integration_type__"] == "shopify":
    resp["customer"]["integrations"]["shopify"] = resp["customer"]["integrations"].pop(key)
    resp["customer"]["integrations"]["shopify"]["id"] = key
```
-/
def stepKey (d : List (String × Json)) (key : String) :
    Except PyError (List (String × Json)) :=
  match getField d key with
  | none => .error (.keyError key)
  | some v =>
    match v with
    | .obj vf =>
      match getField vf "__integration_type__" with
      | none => .error (.keyError "__integration_type__")
      | some w =>
        if jsonEqStr w "shopify" then
          .ok (setField (setField (popField d key) "shopify" (Json.obj vf))
                "shopify" (Json.obj (setField vf "id" (Json.str key))))
        else
          .ok d
    | _ => .error (.typeError "value is not subscriptable")

/-- The whole loop of `parse_response`, iterating `stepKey` over the snapshot
of keys taken before the loop starts. -/
def integrationsLoop : List String → List (String × Json) →
    Except PyError (List (String × Json))
  | [], d => .ok d
  | key :: rest, d =>
    match stepKey d key with
    | .ok d' => integrationsLoop rest d'
    | .error e => .error e

/-- `TicketDetailsStream.parse_response` (streams.py lines 217-232): swap the
dynamic key of the shopify integration for the fixed key `"shopify"`, keeping
the original key as an `id` field, and yield the patched response. -/
def parse_response (resp : Json) : Except PyError Json :=
  match resp with
  | .obj respF =>
    match getField respF "customer" with
    | none => .error (.keyError "customer")
    | some cust =>
      match cust with
      | .obj custF =>
        match getField custF "integrations" with
        | none => .error (.keyError "integrations")
        | some integ =>
          match integ with
          | .obj integF =>
            match integrationsLoop (keysOf integF) integF with
            | .error e => .error e
            | .ok integF' =>
                .ok (.obj (setField respF "customer"
                  (.obj (setField custF "integrations" (.obj integF')))))
          | _ => .error (.typeError "value has no keys method")
      | _ => .error (.typeError "value is not subscriptable")
  | _ => .error (.typeError "value is not subscriptable")

/-! ## `TicketDetailsStream.post_process` (streams.py lines 234-249) -/

/-- The four fields `post_process` strips, in the order they are popped. -/
def prunedFields : List String :=
  ["body_text", "body_html", "stripped_text", "stripped_html"]

/-- The four `row.pop(..., None)` calls of `post_process`. -/
def popMany (fs : List (String × Json)) : List (String × Json) :=
  popField (popField (popField (popField fs "body_text") "body_html")
    "stripped_text") "stripped_html"

/-- The body of the `for message in row["messages"]` loop: the same four pops
on one message; a message that is not a dict has no `pop` method. -/
def pruneMessage : Json → Except PyError Json
  | .obj mf => .ok (.obj (popMany mf))
  | _ => .error (.typeError "value has no pop method")

/-- The `for message in row["messages"]` loop of `post_process`. -/
def pruneMessages : List Json → Except PyError (List Json)
  | [] => .ok []
  | m :: rest =>
    match pruneMessage m with
    | .error e => .error e
    | .ok m' =>
      match pruneMessages rest with
      | .error e => .error e
      | .ok rest' => .ok (m' :: rest')

/-- `TicketDetailsStream.post_process` (streams.py lines 234-249): remove the
ticket and message html/text bodies. -/
def post_process (row : Json) : Except PyError Json :=
  match row with
  | .obj fs =>
    let fs1 := popMany fs
    match getField fs1 "messages" with
    | none => .error (.keyError "messages")
    | some (.arr msgs) =>
      match pruneMessages msgs with
      | .error e => .error e
      | .ok msgs' => .ok (.obj (setField fs1 "messages" (.arr msgs')))
    | some _ => .error (.typeError "value is not iterable")
  | _ => .error (.typeError "value has no pop method")

/-! ## `TicketDetailsStream.get_url_params` (streams.py lines 211-215) -/

/-- `TicketDetailsStream.get_url_params`: override parent URL params with no
paging, returning the empty dict for every context and page token. -/
def get_url_params (_context : Option (List (String × Json)))
    (_next_page_token : Option Json) : List (String × Json) := []

/-! ## `TicketsStream.get_child_context` (streams.py lines 101-103) -/

/-- `TicketsStream.get_child_context`: return `{"ticket_id": record["id"]}`;
`record["id"]` raises `KeyError` when the parent record has no `id`. -/
def get_child_context (record : List (String × Json))
    (_context : Option (List (String × Json))) :
    Except PyError (List (String × Json)) :=
  match getField record "id" with
  | none => .error (.keyError "id")
  | some idv => .ok [("ticket_id", idv)]

/-! ## Stream declarations (streams.py lines 24-475) -/

/-- The class-level declarations of one stream.  `statePartitioningKeys` is
`none` when the class does not set `state_partitioning_keys` (the framework
default applies) and `some ks` when it sets it to the list `ks`;
`replicationKey` is `none` when the class sets no `replication_key`. -/
structure StreamDef where
  name : String
  path : String
  primaryKeys : List String
  replicationKey : Option String
  parentStreamName : Option String
  statePartitioningKeys : Option (List String)
deriving DecidableEq

/-- `TicketsStream` (streams.py lines 24-30). -/
def ticketsStream : StreamDef :=
  { name := "tickets", path := "/api/tickets", primaryKeys := ["id"],
    replicationKey := some "updated_datetime", parentStreamName := none,
    statePartitioningKeys := none }

/-- `TicketDetailsStream` (streams.py lines 106-114). -/
def ticketDetailsStream : StreamDef :=
  { name := "ticket_details", path := "/api/tickets/{ticket_id}",
    primaryKeys := ["id"], replicationKey := none,
    parentStreamName := some "tickets", statePartitioningKeys := some [] }

/-- `MessagesStream` (streams.py lines 252-265). -/
def messagesStream : StreamDef :=
  { name := "messages", path := "/api/tickets/{ticket_id}/messages",
    primaryKeys := ["id"], replicationKey := none,
    parentStreamName := some "tickets", statePartitioningKeys := some [] }

/-- `SatisfactionSurveysStream` (streams.py lines 371-387). -/
def satisfactionSurveysStream : StreamDef :=
  { name := "satisfaction_surveys", path := "/api/satisfaction-surveys",
    primaryKeys := ["id"], replicationKey := none, parentStreamName := none,
    statePartitioningKeys := none }

/-- `CustomersStream` (streams.py lines 402-414). -/
def customersStream : StreamDef :=
  { name := "customers", path := "/api/customers", primaryKeys := ["id"],
    replicationKey := none, parentStreamName := none,
    statePartitioningKeys := none }

/-- The top-level property names declared by the `ticket_details` schema
(streams.py lines 116-209), in declaration order. -/
def ticketDetailsSchemaFields : List String :=
  ["id", "assignee_user", "channel", "closed_datetime", "created_datetime",
   "customer", "events", "external_id", "from_agent", "is_unread", "language",
   "last_message_datetime", "last_received_message_datetime",
   "opened_datetime", "priority", "snooze_datetime", "spam", "status",
   "subject", "tags", "trashed_datetime", "updated_datetime", "via", "uri"]

/-! ## Endpoint path placeholders -/

/-- Scan a character stream for brace-delimited placeholders; the second
argument holds the characters of a placeholder currently being read. -/
def extractPh : List Char → Option (List Char) → List String
  | [], _ => []
  | c :: rest, none =>
      if c = '{' then extractPh rest (some []) else extractPh rest none
  | c :: rest, some acc =>
      if c = '}' then String.mk acc :: extractPh rest none
      else extractPh rest (some (acc ++ [c]))

/-- The placeholder names of an endpoint path template, such as `ticket_id`
in `/api/tickets/{ticket_id}`. -/
def placeholders (path : String) : List String := extractPh path.toList none

/-! ## Framework state semantics, modelled from the spec

The bookmark bookkeeping lives in the sync framework, not in this repository;
the definitions below follow the specification's description of it. -/

/-- Modelled from the spec: the framework's state partitioning.  The missing
code is the framework's incremental state tracker; per the spec, a child
stream with empty `state_partitioning_keys` shares one bookmark for its
stream name across all parent partitions, a stream with partitioning keys
gets one bookmark per projected parent context, and a stream that does not
declare the attribute is keyed by its full parent context. -/
def bookmarkKey (s : StreamDef) (parentContext : List (String × Json)) :
    String × List (String × Json) :=
  match s.statePartitioningKeys with
  | some ks => (s.name, parentContext.filter (fun e => decide (e.1 ∈ ks)))
  | none => (s.name, parentContext)

/-- Modelled from the spec: a stream with no replication key is
full-refresh-only. -/
def fullRefreshOnly (s : StreamDef) : Bool := s.replicationKey.isNone

/-- Modelled from the spec: `resume` returns the persisted bookmark for a
stream; for full-refresh-only streams `resume` is a no-op and every run
starts from empty state. -/
def resume (s : StreamDef) (state : List (String × Json)) : Option Json :=
  if fullRefreshOnly s then none else getField state s.name

/-! ## Derived notions about integration entries -/

/-- An integration sub-object whose `__integration_type__` discriminator is
the string `"shopify"` — the condition tested by the loop of
`parse_response`. -/
def isShopifyEntry (v : Json) : Bool :=
  match v with
  | .obj vf =>
    match getField vf "__integration_type__" with
    | some w => jsonEqStr w "shopify"
    | none => false
  | _ => false

/-- An integration sub-object on which the loop body of `parse_response` does
not raise: a dict that carries the discriminator field. -/
def entryWellFormed (v : Json) : Bool :=
  match v with
  | .obj vf => (getField vf "__integration_type__").isSome
  | _ => false

/-- The entries of an integrations mapping whose discriminator matches
`"shopify"`, in insertion order. -/
def matchingEntries (fs : List (String × Json)) : List (String × Json) :=
  fs.filter (fun e => isShopifyEntry e.2)

/-- The entries of an integrations mapping whose discriminator does not match
`"shopify"`, in insertion order. -/
def nonMatch (fs : List (String × Json)) : List (String × Json) :=
  fs.filter (fun e => !(isShopifyEntry e.2))

/-- The relocated sub-object: its original dynamic key written into a fresh
`id` field. -/
def relocate (key : String) : Json → Json
  | .obj vf => .obj (setField vf "id" (Json.str key))
  | v => v

/-- The trailing `"shopify"` binding produced by the loop of
`parse_response`: absent when no entry matches, otherwise the last matching
entry relocated under the fixed key. -/
def spFor (fs : List (String × Json)) : List (String × Json) :=
  match (matchingEntries fs).getLast? with
  | none => []
  | some (k, v) => [("shopify", relocate k v)]

/-! ## Association-list lemmas -/

@[simp] theorem keysOf_nil : keysOf [] = [] := rfl

@[simp] theorem keysOf_cons (k : String) (v : Json)
    (fs : List (String × Json)) : keysOf ((k, v) :: fs) = k :: keysOf fs := rfl

theorem keysOf_append (fs gs : List (String × Json)) :
    keysOf (fs ++ gs) = keysOf fs ++ keysOf gs := List.map_append _ _ _

theorem getField_eq_none {fs : List (String × Json)} {k : String} :
    getField fs k = none ↔ k ∉ keysOf fs := by
  induction fs with
  | nil => simp [getField]
  | cons e fs ih =>
    obtain ⟨k', v⟩ := e
    by_cases h : k' = k
    · subst h
      simp [getField]
    · simp [getField, h, ih, List.mem_cons, Ne.symm h]

theorem mem_of_getField {fs : List (String × Json)} {k : String} {v : Json}
    (h : getField fs k = some v) : (k, v) ∈ fs := by
  induction fs with
  | nil => simp [getField] at h
  | cons e fs ih =>
    obtain ⟨k', v'⟩ := e
    by_cases hk : k' = k
    · subst hk
      simp [getField] at h
      simp [h]
    · simp [getField, hk] at h
      exact List.mem_cons_of_mem _ (ih h)

theorem mem_keysOf_of_getField {fs : List (String × Json)} {k : String}
    {v : Json} (h : getField fs k = some v) : k ∈ keysOf fs :=
  List.mem_map.2 ⟨(k, v), mem_of_getField h, rfl⟩

theorem getField_append_left {fs gs : List (String × Json)} {k : String}
    {v : Json} (h : getField fs k = some v) :
    getField (fs ++ gs) k = some v := by
  induction fs with
  | nil => simp [getField] at h
  | cons e fs ih =>
    obtain ⟨k', v'⟩ := e
    by_cases hk : k' = k <;> simp [getField, hk] at h ⊢
    · exact h
    · exact ih h

theorem getField_append_right {fs gs : List (String × Json)} {k : String}
    (h : k ∉ keysOf fs) : getField (fs ++ gs) k = getField gs k := by
  induction fs with
  | nil => rfl
  | cons e fs ih =>
    obtain ⟨k', v'⟩ := e
    rw [keysOf_cons, List.mem_cons, not_or] at h
    simp [getField, Ne.symm h.1, ih h.2]

theorem getField_setField_self (fs : List (String × Json)) (k : String)
    (v : Json) : getField (setField fs k v) k = some v := by
  induction fs with
  | nil => simp [setField, getField]
  | cons e fs ih =>
    obtain ⟨k', v'⟩ := e
    by_cases hk : k' = k <;> simp [setField, getField, hk, ih]

theorem getField_setField_ne {fs : List (String × Json)} {k k' : String}
    (v : Json) (h : k' ≠ k) :
    getField (setField fs k v) k' = getField fs k' := by
  induction fs with
  | nil => simp [setField, getField, Ne.symm h]
  | cons e fs ih =>
    obtain ⟨k₀, v₀⟩ := e
    by_cases hk : k₀ = k
    · subst hk
      simp [setField, getField, Ne.symm h]
    · simp [setField, getField, hk, ih]

theorem getField_popField_ne {fs : List (String × Json)} {k k' : String}
    (h : k' ≠ k) : getField (popField fs k) k' = getField fs k' := by
  induction fs with
  | nil => rfl
  | cons e fs ih =>
    obtain ⟨k₀, v₀⟩ := e
    by_cases hk : k₀ = k
    · subst hk
      simp [popField, getField, Ne.symm h]
    · simp [popField, getField, hk, ih]

theorem keysOf_popField_sublist (fs : List (String × Json)) (k : String) :
    List.Sublist (keysOf (popField fs k)) (keysOf fs) := by
  induction fs with
  | nil => simp [popField]
  | cons e fs ih =>
    obtain ⟨k₀, v₀⟩ := e
    by_cases hk : k₀ = k
    · simp [popField, hk]
    · simp [popField, hk]
      exact ih

theorem getField_popField_self {fs : List (String × Json)} {k : String}
    (hnd : (keysOf fs).Nodup) : getField (popField fs k) k = none := by
  induction fs with
  | nil => rfl
  | cons e fs ih =>
    obtain ⟨k₀, v₀⟩ := e
    rw [keysOf_cons, List.nodup_cons] at hnd
    by_cases hk : k₀ = k
    · subst hk
      rw [show popField ((k₀, v₀) :: fs) k₀ = fs by simp [popField]]
      exact getField_eq_none.2 hnd.1
    · simpa [popField, getField, hk] using ih hnd.2

theorem popField_append_notmem {fs gs : List (String × Json)} {k : String}
    (h : k ∉ keysOf fs) : popField (fs ++ gs) k = fs ++ popField gs k := by
  induction fs with
  | nil => rfl
  | cons e fs ih =>
    obtain ⟨k₀, v₀⟩ := e
    rw [keysOf_cons, List.mem_cons, not_or] at h
    simp [popField, Ne.symm h.1, ih h.2]

theorem setField_append_notmem {fs gs : List (String × Json)} {k : String}
    (v : Json) (h : k ∉ keysOf fs) :
    setField (fs ++ gs) k v = fs ++ setField gs k v := by
  induction fs with
  | nil => rfl
  | cons e fs ih =>
    obtain ⟨k₀, v₀⟩ := e
    rw [keysOf_cons, List.mem_cons, not_or] at h
    simp [setField, Ne.symm h.1, ih h.2]

theorem setField_setField (fs : List (String × Json)) (k : String)
    (v w : Json) : setField (setField fs k v) k w = setField fs k w := by
  induction fs with
  | nil => simp [setField]
  | cons e fs ih =>
    obtain ⟨k₀, v₀⟩ := e
    by_cases hk : k₀ = k <;> simp [setField, hk, ih]

theorem getField_filter {fs : List (String × Json)}
    {p : String × Json → Bool} {k : String}
    (h : ∀ v, (k, v) ∈ fs → p (k, v) = true) :
    getField (fs.filter p) k = getField fs k := by
  induction fs with
  | nil => rfl
  | cons e fs ih =>
    obtain ⟨k₀, v₀⟩ := e
    have ih' := ih fun v hv => h v (List.mem_cons_of_mem _ hv)
    by_cases hk : k₀ = k
    · subst hk
      rw [List.filter_cons_of_pos (h v₀ (List.mem_cons_self _ _))]
      simp [getField]
    · cases hp : p (k₀, v₀) with
      | true =>
        rw [List.filter_cons_of_pos hp]
        simp [getField, hk, ih']
      | false =>
        rw [List.filter_cons_of_neg (by simp [hp])]
        simp [getField, hk, ih']

theorem keysOf_filter_sub {fs : List (String × Json)}
    {p : String × Json → Bool} {k : String}
    (h : k ∈ keysOf (fs.filter p)) : k ∈ keysOf fs := by
  rcases List.mem_map.1 h with ⟨e, he, rfl⟩
  exact List.mem_map.2 ⟨e, List.mem_of_mem_filter he, rfl⟩

theorem getField_of_mem_nodup {fs : List (String × Json)} {k : String}
    {v : Json} (hnd : (keysOf fs).Nodup) (h : (k, v) ∈ fs) :
    getField fs k = some v := by
  induction fs with
  | nil => simp at h
  | cons e fs ih =>
    obtain ⟨k₀, v₀⟩ := e
    rw [keysOf_cons, List.nodup_cons] at hnd
    rcases List.mem_cons.1 h with h' | h'
    · rw [← h']
      simp [getField]
    · have hk : k ≠ k₀ := by
        intro hkk
        exact hnd.1 (hkk ▸ List.mem_map.2 ⟨(k, v), h', rfl⟩)
      simp [getField, Ne.symm hk]
      exact ih hnd.2 h'

theorem nodup_keys_unique {fs : List (String × Json)} {k : String}
    {a b : Json} (hnd : (keysOf fs).Nodup) (ha : (k, a) ∈ fs)
    (hb : (k, b) ∈ fs) : a = b := by
  have h1 := getField_of_mem_nodup hnd ha
  have h2 := getField_of_mem_nodup hnd hb
  rw [h1] at h2
  exact Option.some.inj h2

/-! ## Characterizing the loop of `parse_response` -/

theorem entryWellFormed_elim {v : Json} (h : entryWellFormed v = true) :
    ∃ vf w, v = Json.obj vf ∧ getField vf "__integration_type__" = some w := by
  cases v with
  | null => simp [entryWellFormed] at h
  | bool b => simp [entryWellFormed] at h
  | num n => simp [entryWellFormed] at h
  | str s => simp [entryWellFormed] at h
  | arr elems => simp [entryWellFormed] at h
  | obj vf =>
    cases hw : getField vf "__integration_type__" with
    | none => simp [entryWellFormed, hw] at h
    | some w => exact ⟨vf, w, rfl, hw⟩

theorem stepKey_no_match {d : List (String × Json)} {key : String} {v : Json}
    (hget : getField d key = some v) (hwf : entryWellFormed v = true)
    (hm : isShopifyEntry v = false) : stepKey d key = .ok d := by
  obtain ⟨vf, w, rfl, hw⟩ := entryWellFormed_elim hwf
  have hjs : jsonEqStr w "shopify" = false := by
    simpa [isShopifyEntry, hw] using hm
  simp [stepKey, hget, hw, hjs]

theorem stepKey_match {d : List (String × Json)} {key : String}
    {vf : List (String × Json)}
    (hget : getField d key = some (Json.obj vf))
    (hm : isShopifyEntry (Json.obj vf) = true) :
    stepKey d key = .ok (setField (setField (popField d key) "shopify"
      (Json.obj vf)) "shopify" (Json.obj (setField vf "id" (Json.str key)))) := by
  cases hw : getField vf "__integration_type__" with
  | none => simp [isShopifyEntry, hw] at hm
  | some w =>
    have hjs : jsonEqStr w "shopify" = true := by
      simpa [isShopifyEntry, hw] using hm
    simp [stepKey, hget, hw, hjs]

theorem integrationsLoop_cons (key : String) (ks : List String)
    (d d' : List (String × Json)) (h : stepKey d key = .ok d') :
    integrationsLoop (key :: ks) d = integrationsLoop ks d' := by
  simp [integrationsLoop, h]

theorem nonMatch_append (fs gs : List (String × Json)) :
    nonMatch (fs ++ gs) = nonMatch fs ++ nonMatch gs := List.filter_append _ _

theorem matchingEntries_append (fs gs : List (String × Json)) :
    matchingEntries (fs ++ gs) = matchingEntries fs ++ matchingEntries gs :=
  List.filter_append _ _

theorem nonMatch_concat_match {fs : List (String × Json)}
    {e : String × Json} (h : isShopifyEntry e.2 = true) :
    nonMatch (fs ++ [e]) = nonMatch fs := by
  rw [nonMatch_append]
  simp [nonMatch, h]

theorem nonMatch_concat_no_match {fs : List (String × Json)}
    {e : String × Json} (h : isShopifyEntry e.2 = false) :
    nonMatch (fs ++ [e]) = nonMatch fs ++ [e] := by
  rw [nonMatch_append]
  simp [nonMatch, h]

theorem spFor_concat_match {fs : List (String × Json)} {e : String × Json}
    (h : isShopifyEntry e.2 = true) :
    spFor (fs ++ [e]) = [("shopify", relocate e.1 e.2)] := by
  unfold spFor
  rw [matchingEntries_append]
  rw [show matchingEntries [e] = [e] by simp [matchingEntries, h]]
  rw [List.getLast?_concat]

theorem spFor_concat_no_match {fs : List (String × Json)} {e : String × Json}
    (h : isShopifyEntry e.2 = false) : spFor (fs ++ [e]) = spFor fs := by
  unfold spFor
  rw [matchingEntries_append]
  rw [show matchingEntries [e] = [] by simp [matchingEntries, h]]
  rw [List.append_nil]

theorem setField_spFor (fs : List (String × Json)) (r : Json) :
    setField (spFor fs) "shopify" r = [("shopify", r)] := by
  unfold spFor
  cases (matchingEntries fs).getLast? with
  | none => rfl
  | some e =>
    obtain ⟨k, v⟩ := e
    simp [setField]

/-- The invariant of the `for key in list(...keys())` loop of
`parse_response`.  Processing the remaining entries `fsr` of an original
dict `fsp ++ fsr` whose processed prefix is `fsp` turns the current dict —
the unmatched prefix entries, then the untouched remainder, then the
relocated last match so far — into the same shape for the full dict. -/
theorem integrationsLoop_inv (fsr : List (String × Json)) :
    ∀ fsp : List (String × Json),
    (keysOf (fsp ++ fsr)).Nodup →
    "shopify" ∉ keysOf (fsp ++ fsr) →
    (∀ e ∈ fsr, entryWellFormed e.2 = true) →
    integrationsLoop (keysOf fsr) (nonMatch fsp ++ (fsr ++ spFor fsp)) =
      .ok (nonMatch (fsp ++ fsr) ++ spFor (fsp ++ fsr)) := by
  induction fsr with
  | nil =>
    intro fsp hnd hsh hwf
    simp [integrationsLoop]
  | cons e fsr ih =>
    obtain ⟨key, v₀⟩ := e
    intro fsp hnd hsh hwf
    have hnd' : (keysOf fsp ++ key :: keysOf fsr).Nodup := by
      rwa [keysOf_append, keysOf_cons] at hnd
    have hkey_fsp : key ∉ keysOf fsp := fun hmem =>
      (List.disjoint_of_nodup_append hnd') hmem (List.mem_cons_self _ _)
    have hkey_fsr : key ∉ keysOf fsr :=
      (List.nodup_cons.1 (List.nodup_append.1 hnd').2.1).1
    have hsh3 : "shopify" ∉ keysOf fsp ∧ "shopify" ≠ key ∧
        "shopify" ∉ keysOf fsr := by
      rw [keysOf_append, keysOf_cons] at hsh
      simpa [List.mem_append, List.mem_cons, not_or] using hsh
    have hnm_key : key ∉ keysOf (nonMatch fsp) := fun h =>
      hkey_fsp (keysOf_filter_sub h)
    have hnm_sh : "shopify" ∉ keysOf (nonMatch fsp) := fun h =>
      hsh3.1 (keysOf_filter_sub h)
    have hwf₀ : entryWellFormed v₀ = true := hwf (key, v₀) (List.mem_cons_self _ _)
    obtain ⟨vf₀, w, rfl, hw⟩ := entryWellFormed_elim hwf₀
    have hget : getField (nonMatch fsp ++
        ((key, Json.obj vf₀) :: (fsr ++ spFor fsp))) key = some (Json.obj vf₀) := by
      rw [getField_append_right hnm_key]
      simp [getField]
    have hih : ∀ d,
        d = nonMatch (fsp ++ [(key, Json.obj vf₀)]) ++
          (fsr ++ spFor (fsp ++ [(key, Json.obj vf₀)])) →
        integrationsLoop (keysOf fsr) d =
          .ok (nonMatch (fsp ++ (key, Json.obj vf₀) :: fsr) ++
            spFor (fsp ++ (key, Json.obj vf₀) :: fsr)) := by
      intro d hd
      subst hd
      have h1 : (keysOf ((fsp ++ [(key, Json.obj vf₀)]) ++ fsr)).Nodup := by
        simpa using hnd
      have h2 : "shopify" ∉ keysOf ((fsp ++ [(key, Json.obj vf₀)]) ++ fsr) := by
        simpa using hsh
      have h3 : ∀ e ∈ fsr, entryWellFormed e.2 = true := fun e he =>
        hwf e (List.mem_cons_of_mem _ he)
      have := ih (fsp ++ [(key, Json.obj vf₀)]) h1 h2 h3
      simpa using this
    simp only [List.cons_append, keysOf_cons]
    cases hm : isShopifyEntry (Json.obj vf₀) with
    | false =>
      rw [integrationsLoop_cons key _ _ _ (stepKey_no_match hget hwf₀ hm)]
      apply hih
      rw [nonMatch_concat_no_match (show isShopifyEntry ((key, Json.obj vf₀)).2 = false from hm),
        spFor_concat_no_match (show isShopifyEntry ((key, Json.obj vf₀)).2 = false from hm)]
      simp
    | true =>
      have hstep := stepKey_match hget hm
      have hd' : setField (setField (popField (nonMatch fsp ++
            ((key, Json.obj vf₀) :: (fsr ++ spFor fsp))) key) "shopify"
            (Json.obj vf₀)) "shopify"
            (Json.obj (setField vf₀ "id" (Json.str key))) =
          nonMatch fsp ++ (fsr ++
            [("shopify", Json.obj (setField vf₀ "id" (Json.str key)))]) := by
        rw [setField_setField]
        rw [popField_append_notmem hnm_key]
        rw [show popField ((key, Json.obj vf₀) :: (fsr ++ spFor fsp)) key
            = fsr ++ spFor fsp by simp [popField]]
        rw [setField_append_notmem _ hnm_sh]
        rw [setField_append_notmem _ hsh3.2.2]
        rw [setField_spFor]
      rw [integrationsLoop_cons key _ _ _ (by rw [hstep, hd'])]
      apply hih
      rw [nonMatch_concat_match (show isShopifyEntry ((key, Json.obj vf₀)).2 = true from hm),
        spFor_concat_match (show isShopifyEntry ((key, Json.obj vf₀)).2 = true from hm)]
      rfl

/-- What `parse_response` returns on a structurally well-formed response:
the patched integrations dict keeps the non-matching entries in order and
ends with the relocated last matching entry under the fixed key
`"shopify"`, and nothing else in the response changes. -/
theorem parse_response_eq {respF custF integF : List (String × Json)}
    (hcust : getField respF "customer" = some (Json.obj custF))
    (hinteg : getField custF "integrations" = some (Json.obj integF))
    (hnd : (keysOf integF).Nodup)
    (hsh : "shopify" ∉ keysOf integF)
    (hwf : ∀ e ∈ integF, entryWellFormed e.2 = true) :
    parse_response (Json.obj respF) = .ok (Json.obj (setField respF "customer"
      (Json.obj (setField custF "integrations"
        (Json.obj (nonMatch integF ++ spFor integF)))))) := by
  have hloop : integrationsLoop (keysOf integF) integF =
      .ok (nonMatch integF ++ spFor integF) := by
    have := integrationsLoop_inv integF [] (by simpa using hnd)
      (by simpa using hsh) hwf
    simpa [nonMatch, spFor, matchingEntries] using this
  simp [parse_response, hcust, hinteg, hloop]

/-! ## Characterizing `post_process` -/

theorem nodup_keysOf_popField (fs : List (String × Json)) (k : String)
    (hnd : (keysOf fs).Nodup) : (keysOf (popField fs k)).Nodup :=
  List.Nodup.sublist (keysOf_popField_sublist fs k) hnd

theorem getField_popMany_pruned {fs : List (String × Json)} {f : String}
    (hnd : (keysOf fs).Nodup) (hf : f ∈ prunedFields) :
    getField (popMany fs) f = none := by
  have h1 := nodup_keysOf_popField fs "body_text" hnd
  have h2 := nodup_keysOf_popField _ "body_html" h1
  have h3 := nodup_keysOf_popField _ "stripped_text" h2
  have hf4 : f = "body_text" ∨ f = "body_html" ∨ f = "stripped_text" ∨
      f = "stripped_html" := by simpa [prunedFields] using hf
  rcases hf4 with rfl | rfl | rfl | rfl
  · unfold popMany
    rw [getField_popField_ne (by decide), getField_popField_ne (by decide),
      getField_popField_ne (by decide)]
    exact getField_popField_self hnd
  · unfold popMany
    rw [getField_popField_ne (by decide), getField_popField_ne (by decide)]
    exact getField_popField_self h1
  · unfold popMany
    rw [getField_popField_ne (by decide)]
    exact getField_popField_self h2
  · unfold popMany
    exact getField_popField_self h3

theorem getField_popMany_other {fs : List (String × Json)} {f : String}
    (hf : f ∉ prunedFields) : getField (popMany fs) f = getField fs f := by
  have h4 : f ≠ "body_text" ∧ f ≠ "body_html" ∧ f ≠ "stripped_text" ∧
      f ≠ "stripped_html" := by simpa [prunedFields, not_or] using hf
  unfold popMany
  rw [getField_popField_ne h4.2.2.2, getField_popField_ne h4.2.2.1,
    getField_popField_ne h4.2.1, getField_popField_ne h4.1]

/-- The pruning applied to each element of the `messages` array. -/
def prunedJson : Json → Json
  | .obj mf => .obj (popMany mf)
  | v => v

theorem pruneMessages_eq {msgs : List Json}
    (h : ∀ m ∈ msgs, ∃ mf, m = Json.obj mf) :
    pruneMessages msgs = .ok (msgs.map prunedJson) := by
  induction msgs with
  | nil => rfl
  | cons m rest ih =>
    obtain ⟨mf, rfl⟩ := h m (List.mem_cons_self _ _)
    rw [List.map_cons]
    simp [pruneMessages, pruneMessage, prunedJson,
      ih fun m hm => h m (List.mem_cons_of_mem _ hm)]

/-- What `post_process` returns on a row that carries a `messages` array of
dicts: the four body fields popped at top level, and the same four popped
inside every message. -/
theorem post_process_eq {fs : List (String × Json)} {msgs : List Json}
    (hm : getField fs "messages" = some (Json.arr msgs))
    (hobj : ∀ m ∈ msgs, ∃ mf, m = Json.obj mf) :
    post_process (Json.obj fs) =
      .ok (Json.obj (setField (popMany fs) "messages"
        (Json.arr (msgs.map prunedJson)))) := by
  have hm1 : getField (popMany fs) "messages" = some (Json.arr msgs) := by
    rw [getField_popMany_other (by decide)]
    exact hm
  simp [post_process, hm1, pruneMessages_eq hobj]

/-- `post_process` on a row with no `messages` key: `row["messages"]`
raises `KeyError`. -/
theorem post_process_missing_messages {fs : List (String × Json)}
    (h : getField fs "messages" = none) :
    post_process (Json.obj fs) = .error (.keyError "messages") := by
  have hm1 : getField (popMany fs) "messages" = none := by
    rw [getField_popMany_other (by decide)]
    exact h
  simp [post_process, hm1]

/-! ## Lookups in the patched integrations dict -/

theorem keysOf_nonMatch_sub {fs : List (String × Json)} {k : String}
    (h : k ∈ keysOf (nonMatch fs)) : k ∈ keysOf fs :=
  keysOf_filter_sub h

theorem getField_spFor_ne {fs : List (String × Json)} {k : String}
    (h : k ≠ "shopify") : getField (spFor fs) k = none := by
  unfold spFor
  cases (matchingEntries fs).getLast? with
  | none => rfl
  | some e =>
    obtain ⟨k₀, v₀⟩ := e
    simp [getField, Ne.symm h]

/-- After the loop, the fixed key `"shopify"` holds the relocated last
matching entry. -/
theorem getField_result_shopify {integF : List (String × Json)} {r : Json}
    (hsh : "shopify" ∉ keysOf integF) (hsp : spFor integF = [("shopify", r)]) :
    getField (nonMatch integF ++ spFor integF) "shopify" = some r := by
  have hnm : "shopify" ∉ keysOf (nonMatch integF) := fun h =>
    hsh (keysOf_nonMatch_sub h)
  rw [getField_append_right hnm, hsp]
  simp [getField]

/-- After the loop, the dynamic key of any matching entry is gone — provided
the dict never carried the literal key `"shopify"`. -/
theorem getField_result_of_match {integF : List (String × Json)} {k : String}
    {vf : List (String × Json)} (hnd : (keysOf integF).Nodup)
    (hsh : "shopify" ∉ keysOf integF)
    (hmem : (k, Json.obj vf) ∈ matchingEntries integF) :
    getField (nonMatch integF ++ spFor integF) k = none := by
  have hin : (k, Json.obj vf) ∈ integF := List.mem_of_mem_filter hmem
  have hmatch : isShopifyEntry (Json.obj vf) = true := by
    simpa using List.of_mem_filter hmem
  have hkey : k ∈ keysOf integF := List.mem_map.2 ⟨_, hin, rfl⟩
  have hk_sh : k ≠ "shopify" := fun h => hsh (h ▸ hkey)
  have hnm : getField (nonMatch integF) k = none := by
    apply getField_eq_none.2
    intro hmemk
    rcases List.mem_map.1 hmemk with ⟨e, he, hfst⟩
    obtain ⟨k', w⟩ := e
    simp only at hfst
    have hw_in : (k, w) ∈ integF := by
      rw [← hfst]
      exact List.mem_of_mem_filter he
    have hwv : w = Json.obj vf := nodup_keys_unique hnd hw_in hin
    subst hwv
    have hpred := List.of_mem_filter he
    simp [hmatch] at hpred
  rw [getField_append_right (getField_eq_none.1 hnm)]
  exact getField_spFor_ne hk_sh

/-! ## Claim C1 -/

/-- Claim C1, counterexample: a ticket-details response whose integrations
mapping holds exactly one matching sub-object, stored under the dynamic key
`k = "shopify"`.  `parse_response` succeeds, but the dynamic key `k` is
still present in the resulting mapping, contradicting the claim's clause
that `k` is no longer present. -/
theorem claim1_counterexample :
    matchingEntries
        [("shopify", Json.obj [("__integration_type__", Json.str "shopify")])] =
      [("shopify", Json.obj [("__integration_type__", Json.str "shopify")])] ∧
    parse_response (Json.obj [("customer", Json.obj [("integrations",
        Json.obj [("shopify",
          Json.obj [("__integration_type__", Json.str "shopify")])])])]) =
      .ok (Json.obj [("customer", Json.obj [("integrations",
        Json.obj [("shopify",
          Json.obj [("__integration_type__", Json.str "shopify"),
            ("id", Json.str "shopify")])])])]) ∧
    (getField [("shopify", Json.obj [("__integration_type__", Json.str "shopify"),
        ("id", Json.str "shopify")])] "shopify").isSome = true :=
  ⟨rfl, rfl, rfl⟩

/-- Claim C1 (amended): for a response whose `customer.integrations` mapping
has exactly one sub-object matching the `"shopify"` discriminator, stored
under the dynamic key `k`, and whose original keys do not include the
literal `"shopify"`, `parse_response` yields a record whose integrations
mapping binds `"shopify"` to that sub-object, with the original key `k`
preserved as an `id` field and the key `k` removed. -/
theorem claim1_amended {respF custF integF vf : List (String × Json)}
    {k : String}
    (hcust : getField respF "customer" = some (Json.obj custF))
    (hinteg : getField custF "integrations" = some (Json.obj integF))
    (hnd : (keysOf integF).Nodup)
    (hsh : "shopify" ∉ keysOf integF)
    (hwf : ∀ e ∈ integF, entryWellFormed e.2 = true)
    (hone : matchingEntries integF = [(k, Json.obj vf)]) :
    ∃ integF',
      parse_response (Json.obj respF) = .ok (Json.obj (setField respF "customer"
        (Json.obj (setField custF "integrations" (Json.obj integF'))))) ∧
      getField integF' "shopify" =
        some (Json.obj (setField vf "id" (Json.str k))) ∧
      getField (setField vf "id" (Json.str k)) "id" = some (Json.str k) ∧
      getField integF' k = none := by
  have hsp : spFor integF =
      [("shopify", Json.obj (setField vf "id" (Json.str k)))] := by
    unfold spFor
    rw [hone]
    rfl
  refine ⟨nonMatch integF ++ spFor integF,
    parse_response_eq hcust hinteg hnd hsh hwf, ?_, ?_, ?_⟩
  · exact getField_result_shopify hsh hsp
  · exact getField_setField_self vf "id" (Json.str k)
  · exact getField_result_of_match hnd hsh
      (by rw [hone]; exact List.mem_singleton.2 rfl)

/-- Claim C1, witness of the amended theorem at a concrete response whose
single matching sub-object lives under the dynamic key `"4217"`. -/
theorem claim1_witness :
    ∃ integF',
      parse_response (Json.obj [("customer", Json.obj [("integrations",
          Json.obj [("4217",
            Json.obj [("__integration_type__", Json.str "shopify"),
              ("orders", Json.arr [])])])])]) =
        .ok (Json.obj (setField [("customer", Json.obj [("integrations",
          Json.obj [("4217",
            Json.obj [("__integration_type__", Json.str "shopify"),
              ("orders", Json.arr [])])])])] "customer"
          (Json.obj (setField [("integrations",
            Json.obj [("4217",
              Json.obj [("__integration_type__", Json.str "shopify"),
                ("orders", Json.arr [])])])] "integrations"
            (Json.obj integF'))))) ∧
      getField integF' "shopify" =
        some (Json.obj (setField [("__integration_type__", Json.str "shopify"),
          ("orders", Json.arr [])] "id" (Json.str "4217"))) ∧
      getField (setField [("__integration_type__", Json.str "shopify"),
        ("orders", Json.arr [])] "id" (Json.str "4217")) "id" =
        some (Json.str "4217") ∧
      getField integF' "4217" = none :=
  claim1_amended rfl rfl (by decide) (by decide)
    (by
      rintro e he
      rw [List.mem_singleton] at he
      subst he
      rfl)
    rfl

/-! ## Claim C2 -/

/-- Claim C2, counterexample: a ticket-details response whose integrations
mapping holds two sub-objects matching the `"shopify"` discriminator.
`parse_response` does not fail with any error: it succeeds, keeping only
the second matching sub-object. -/
theorem claim2_counterexample :
    matchingEntries
        [("1", Json.obj [("__integration_type__", Json.str "shopify")]),
         ("2", Json.obj [("__integration_type__", Json.str "shopify")])] =
      [("1", Json.obj [("__integration_type__", Json.str "shopify")]),
       ("2", Json.obj [("__integration_type__", Json.str "shopify")])] ∧
    parse_response (Json.obj [("customer", Json.obj [("integrations",
        Json.obj [("1", Json.obj [("__integration_type__", Json.str "shopify")]),
          ("2", Json.obj [("__integration_type__", Json.str "shopify")])])])]) =
      .ok (Json.obj [("customer", Json.obj [("integrations",
        Json.obj [("shopify",
          Json.obj [("__integration_type__", Json.str "shopify"),
            ("id", Json.str "2")])])])]) :=
  ⟨rfl, rfl⟩

/-- Claim C2 (amended): on a response whose `customer.integrations` mapping
has two sub-objects matching the `"shopify"` discriminator (under dynamic
keys `k₁` then `k₂`, with the literal key `"shopify"` not among the
original keys), `parse_response` raises no error: it yields a record whose
integrations mapping binds `"shopify"` to the second (last) matching
sub-object with its original key `k₂` as `id` field, both dynamic keys
being removed. -/
theorem claim2_amended {respF custF integF v₁ v₂ : List (String × Json)}
    {k₁ k₂ : String}
    (hcust : getField respF "customer" = some (Json.obj custF))
    (hinteg : getField custF "integrations" = some (Json.obj integF))
    (hnd : (keysOf integF).Nodup)
    (hsh : "shopify" ∉ keysOf integF)
    (hwf : ∀ e ∈ integF, entryWellFormed e.2 = true)
    (htwo : matchingEntries integF = [(k₁, Json.obj v₁), (k₂, Json.obj v₂)]) :
    ∃ integF',
      parse_response (Json.obj respF) = .ok (Json.obj (setField respF "customer"
        (Json.obj (setField custF "integrations" (Json.obj integF'))))) ∧
      getField integF' "shopify" =
        some (Json.obj (setField v₂ "id" (Json.str k₂))) ∧
      getField integF' k₁ = none ∧
      getField integF' k₂ = none := by
  have hsp : spFor integF =
      [("shopify", Json.obj (setField v₂ "id" (Json.str k₂)))] := by
    unfold spFor
    rw [htwo]
    rfl
  refine ⟨nonMatch integF ++ spFor integF,
    parse_response_eq hcust hinteg hnd hsh hwf, ?_, ?_, ?_⟩
  · exact getField_result_shopify hsh hsp
  · exact getField_result_of_match hnd hsh
      (by rw [htwo]; exact List.mem_cons_self _ _)
  · exact getField_result_of_match hnd hsh
      (by rw [htwo]; exact List.mem_cons_of_mem _ (List.mem_singleton.2 rfl))

/-- Claim C2, witness of the amended theorem at a concrete response with two
matching sub-objects under the dynamic keys `"7"` and `"9"`. -/
theorem claim2_witness :
    ∃ integF',
      parse_response (Json.obj [("customer", Json.obj [("integrations",
          Json.obj [("7", Json.obj [("__integration_type__", Json.str "shopify")]),
            ("9", Json.obj [("__integration_type__", Json.str "shopify")])])])]) =
        .ok (Json.obj (setField [("customer", Json.obj [("integrations",
          Json.obj [("7", Json.obj [("__integration_type__", Json.str "shopify")]),
            ("9", Json.obj [("__integration_type__", Json.str "shopify")])])])]
          "customer" (Json.obj (setField [("integrations",
            Json.obj [("7", Json.obj [("__integration_type__", Json.str "shopify")]),
              ("9", Json.obj [("__integration_type__", Json.str "shopify")])])]
            "integrations" (Json.obj integF'))))) ∧
      getField integF' "shopify" =
        some (Json.obj (setField [("__integration_type__", Json.str "shopify")]
          "id" (Json.str "9"))) ∧
      getField integF' "7" = none ∧
      getField integF' "9" = none :=
  claim2_amended rfl rfl (by decide) (by decide)
    (by
      rintro e he
      rw [List.mem_cons, List.mem_singleton] at he
      rcases he with rfl | rfl <;> rfl)
    rfl

/-! ## Claim C3 -/

/-- Claim C3: on a ticket-detail record carrying the four body fields at top
level and a `messages` array whose elements are dicts each carrying the
same four fields, `post_process` returns a record with none of the four
fields at top level and none inside any `messages` element. -/
theorem claim3 {fs : List (String × Json)} {msgs : List Json}
    (hnd : (keysOf fs).Nodup)
    (hmsgs : getField fs "messages" = some (Json.arr msgs))
    (_hfour : ∀ f ∈ prunedFields, f ∈ keysOf fs)
    (hobj : ∀ m ∈ msgs, ∃ mf, m = Json.obj mf ∧ (keysOf mf).Nodup ∧
      ∀ f ∈ prunedFields, f ∈ keysOf mf) :
    ∃ out msgs',
      post_process (Json.obj fs) = .ok (Json.obj out) ∧
      (∀ f ∈ prunedFields, getField out f = none) ∧
      getField out "messages" = some (Json.arr msgs') ∧
      ∀ m ∈ msgs', ∃ mf, m = Json.obj mf ∧
        ∀ f ∈ prunedFields, getField mf f = none := by
  have hobj' : ∀ m ∈ msgs, ∃ mf, m = Json.obj mf := fun m hm =>
    ⟨(hobj m hm).choose, (hobj m hm).choose_spec.1⟩
  refine ⟨setField (popMany fs) "messages" (Json.arr (msgs.map prunedJson)),
    msgs.map prunedJson, post_process_eq hmsgs hobj', ?_, ?_, ?_⟩
  · intro f hf
    have hne : f ≠ "messages" := fun hfm => absurd (hfm ▸ hf) (by decide)
    rw [getField_setField_ne _ hne]
    exact getField_popMany_pruned hnd hf
  · exact getField_setField_self (popMany fs) "messages" _
  · intro m hm
    rcases List.mem_map.1 hm with ⟨m₀, hm₀, rfl⟩
    obtain ⟨mf, rfl, hmfnd, _⟩ := hobj m₀ hm₀
    exact ⟨popMany mf, rfl, fun f hf => getField_popMany_pruned hmfnd hf⟩

/-- Claim C3, witness at a concrete record with the four body fields at top
level and one message carrying the same four fields. -/
theorem claim3_witness :
    ∃ out msgs',
      post_process (Json.obj [("id", Json.num 1),
        ("body_text", Json.str "a"), ("body_html", Json.str "b"),
        ("stripped_text", Json.str "c"), ("stripped_html", Json.str "d"),
        ("messages", Json.arr [Json.obj [("id", Json.num 2),
          ("body_text", Json.str "e"), ("body_html", Json.str "f"),
          ("stripped_text", Json.str "g"),
          ("stripped_html", Json.str "h")]])]) = .ok (Json.obj out) ∧
      (∀ f ∈ prunedFields, getField out f = none) ∧
      getField out "messages" = some (Json.arr msgs') ∧
      ∀ m ∈ msgs', ∃ mf, m = Json.obj mf ∧
        ∀ f ∈ prunedFields, getField mf f = none :=
  claim3 (by decide) rfl (by decide)
    (by
      rintro m hm
      rw [List.mem_singleton] at hm
      subst hm
      exact ⟨[("id", Json.num 2), ("body_text", Json.str "e"),
        ("body_html", Json.str "f"), ("stripped_text", Json.str "g"),
        ("stripped_html", Json.str "h")], rfl, by decide, by decide⟩)

/-! ## Claim C4 -/

/-- Claim C4, counterexample: a fully transformed `ticket_details` record
(the output of `parse_response` followed by `post_process` on a minimal
well-formed response) keeps its `messages` field, which the declared
`ticket_details` schema does not list, so the emitted record's field set is
not a subset of the schema's fields. -/
theorem claim4_counterexample :
    parse_response (Json.obj [("id", Json.num 1),
        ("customer", Json.obj [("integrations", Json.obj [])]),
        ("messages", Json.arr [])]) =
      .ok (Json.obj [("id", Json.num 1),
        ("customer", Json.obj [("integrations", Json.obj [])]),
        ("messages", Json.arr [])]) ∧
    post_process (Json.obj [("id", Json.num 1),
        ("customer", Json.obj [("integrations", Json.obj [])]),
        ("messages", Json.arr [])]) =
      .ok (Json.obj [("id", Json.num 1),
        ("customer", Json.obj [("integrations", Json.obj [])]),
        ("messages", Json.arr [])]) ∧
    "messages" ∈ keysOf [("id", Json.num 1),
      ("customer", Json.obj [("integrations", Json.obj [])]),
      ("messages", Json.arr [])] ∧
    "messages" ∉ ticketDetailsSchemaFields :=
  ⟨rfl, rfl, by decide, by decide⟩

/-- Claim C4 (amended): the transformation guarantees only that the four
pruned body fields are gone — the record's top-level field names after
`post_process` are the raw names minus the pruned ones, every other field
keeping its raw value.  The subset-of-schema property fails because
undeclared fields survive: in particular the `messages` key, which every
successfully transformed record still carries even though the
`ticket_details` schema does not declare it. -/
theorem claim4_amended {fs : List (String × Json)} {msgs : List Json}
    (hnd : (keysOf fs).Nodup)
    (hmsgs : getField fs "messages" = some (Json.arr msgs))
    (hobj : ∀ m ∈ msgs, ∃ mf, m = Json.obj mf) :
    ∃ out,
      post_process (Json.obj fs) = .ok (Json.obj out) ∧
      (∀ f ∈ prunedFields, getField out f = none) ∧
      (∀ f, f ∉ prunedFields → f ≠ "messages" →
        getField out f = getField fs f) ∧
      (∃ msgs', getField out "messages" = some (Json.arr msgs')) ∧
      "messages" ∈ keysOf out ∧
      "messages" ∉ ticketDetailsSchemaFields := by
  refine ⟨setField (popMany fs) "messages" (Json.arr (msgs.map prunedJson)),
    post_process_eq hmsgs hobj, ?_, ?_, ?_, ?_, by decide⟩
  · intro f hf
    have hne : f ≠ "messages" := fun hfm => absurd (hfm ▸ hf) (by decide)
    rw [getField_setField_ne _ hne]
    exact getField_popMany_pruned hnd hf
  · intro f hf hfm
    rw [getField_setField_ne _ hfm]
    exact getField_popMany_other hf
  · exact ⟨msgs.map prunedJson,
      getField_setField_self (popMany fs) "messages" _⟩
  · exact mem_keysOf_of_getField
      (getField_setField_self (popMany fs) "messages" (Json.arr (msgs.map prunedJson)))

/-- Claim C4, witness of the amended theorem at a concrete raw record. -/
theorem claim4_witness :
    ∃ out,
      post_process (Json.obj [("id", Json.num 3),
        ("body_text", Json.str "a"), ("subject", Json.str "s"),
        ("messages", Json.arr [])]) = .ok (Json.obj out) ∧
      (∀ f ∈ prunedFields, getField out f = none) ∧
      (∀ f, f ∉ prunedFields → f ≠ "messages" →
        getField out f = getField [("id", Json.num 3),
          ("body_text", Json.str "a"), ("subject", Json.str "s"),
          ("messages", Json.arr [])] f) ∧
      (∃ msgs', getField out "messages" = some (Json.arr msgs')) ∧
      "messages" ∈ keysOf out ∧
      "messages" ∉ ticketDetailsSchemaFields :=
  claim4_amended (by decide) rfl (by rintro m hm; simp at hm)

/-! ## Claim C9 -/

/-- Claim C9: `post_process` is not total on records — on any input record
lacking a `messages` key it raises `KeyError` instead of returning a
transformed record, even though the `ticket_details` schema does not
declare `messages` at all. -/
theorem claim9 {fs : List (String × Json)}
    (h : getField fs "messages" = none) :
    post_process (Json.obj fs) = .error (.keyError "messages") ∧
    "messages" ∉ ticketDetailsSchemaFields :=
  ⟨post_process_missing_messages h, by decide⟩

/-- Claim C9, witness at a concrete record with no `messages` key. -/
theorem claim9_witness :
    post_process (Json.obj [("id", Json.num 1), ("spam", Json.bool false)]) =
      .error (.keyError "messages") ∧
    "messages" ∉ ticketDetailsSchemaFields :=
  claim9 rfl

/-! ## Claim C5 -/

/-- Claim C5: for every parent tickets record, `get_child_context` produces
exactly one context mapping, `{"ticket_id": record["id"]}`, which covers
every placeholder of both child endpoint templates
(`/api/tickets/{ticket_id}` and `/api/tickets/{ticket_id}/messages`); on a
parent record lacking `id` it fails with the context error — the `KeyError`
on the missing field. -/
theorem claim5 (record : List (String × Json))
    (ctx : Option (List (String × Json))) :
    (∀ idv, getField record "id" = some idv →
      get_child_context record ctx = .ok [("ticket_id", idv)] ∧
      (∀ p ∈ placeholders ticketDetailsStream.path,
        (getField [("ticket_id", idv)] p).isSome = true) ∧
      (∀ p ∈ placeholders messagesStream.path,
        (getField [("ticket_id", idv)] p).isSome = true)) ∧
    (getField record "id" = none →
      get_child_context record ctx = .error (.keyError "id")) := by
  constructor
  · intro idv hid
    refine ⟨by simp [get_child_context, hid], ?_, ?_⟩
    · intro p hp
      rw [show placeholders ticketDetailsStream.path = ["ticket_id"] from rfl,
        List.mem_singleton] at hp
      subst hp
      rfl
    · intro p hp
      rw [show placeholders messagesStream.path = ["ticket_id"] from rfl,
        List.mem_singleton] at hp
      subst hp
      rfl
  · intro hid
    simp [get_child_context, hid]

/-- Claim C5, witness: the resolver on a record with `id = 7` and on a
record lacking `id`. -/
theorem claim5_witness :
    get_child_context [("id", Json.num 7)] none =
      .ok [("ticket_id", Json.num 7)] ∧
    get_child_context [("subject", Json.str "s")] none =
      .error (.keyError "id") :=
  ⟨((claim5 [("id", Json.num 7)] none).1 (Json.num 7) rfl).1,
    (claim5 [("subject", Json.str "s")] none).2 rfl⟩

/-! ## Claim C6 -/

/-- Claim C6: both child streams of `tickets` declare empty
`state_partitioning_keys`, so the bookmark key of either stream is the same
for every parent ticket context: one logical bookmark per stream name. -/
theorem claim6 :
    ticketDetailsStream.parentStreamName = some ticketsStream.name ∧
    messagesStream.parentStreamName = some ticketsStream.name ∧
    ticketDetailsStream.statePartitioningKeys = some [] ∧
    messagesStream.statePartitioningKeys = some [] ∧
    (∀ c c', bookmarkKey ticketDetailsStream c = bookmarkKey ticketDetailsStream c') ∧
    (∀ c c', bookmarkKey messagesStream c = bookmarkKey messagesStream c') := by
  have hnil : ∀ c : List (String × Json),
      c.filter (fun e => decide (e.1 ∈ ([] : List String))) = [] := by
    intro c
    induction c with
    | nil => rfl
    | cons e c ih => simp [ih]
  refine ⟨rfl, rfl, rfl, rfl, ?_, ?_⟩
  · intro c c'
    simp [bookmarkKey, ticketDetailsStream, hnil]
  · intro c c'
    simp [bookmarkKey, messagesStream, hnil]

/-! ## Claim C7 -/

/-- Claim C7: `satisfaction_surveys` and `customers` declare no replication
key, hence are full-refresh-only — `resume` yields no bookmark for any
persisted state, every run starting empty — while `tickets` declares the
replication key `updated_datetime` and is not full-refresh-only. -/
theorem claim7 :
    satisfactionSurveysStream.replicationKey = none ∧
    customersStream.replicationKey = none ∧
    ticketsStream.replicationKey = some "updated_datetime" ∧
    fullRefreshOnly satisfactionSurveysStream = true ∧
    fullRefreshOnly customersStream = true ∧
    fullRefreshOnly ticketsStream = false ∧
    (∀ st, resume satisfactionSurveysStream st = none) ∧
    (∀ st, resume customersStream st = none) := by
  refine ⟨rfl, rfl, rfl, rfl, rfl, rfl, ?_, ?_⟩ <;>
    intro st <;> rfl

/-! ## Claim C8 -/

/-- Claim C8: `TicketDetailsStream.get_url_params` returns the empty mapping
for every context and every page token. -/
theorem claim8 (ctx : Option (List (String × Json)))
    (next_page_token : Option Json) :
    get_url_params ctx next_page_token = [] := rfl

/-! ## Claim C10 -/

/-- Claim C10, counterexample: a response whose integrations mapping stores
a non-shopify sub-object under the literal key `"shopify"` together with a
matching sub-object under `"123"`.  The claim says non-shopify entries keep
their keys and contents, yet after `parse_response` the `"shopify"` key no
longer holds the original non-shopify sub-object — the relocated matching
entry overwrote it. -/
theorem claim10_counterexample :
    isShopifyEntry (Json.obj [("__integration_type__", Json.str "other")]) =
      false ∧
    getField [("shopify", Json.obj [("__integration_type__", Json.str "other")]),
        ("123", Json.obj [("__integration_type__", Json.str "shopify")])]
      "shopify" = some (Json.obj [("__integration_type__", Json.str "other")]) ∧
    parse_response (Json.obj [("customer", Json.obj [("integrations",
        Json.obj [("shopify", Json.obj [("__integration_type__", Json.str "other")]),
          ("123", Json.obj [("__integration_type__", Json.str "shopify")])])])]) =
      .ok (Json.obj [("customer", Json.obj [("integrations",
        Json.obj [("shopify", Json.obj [("__integration_type__", Json.str "shopify"),
          ("id", Json.str "123")])])])]) ∧
    getField [("shopify", Json.obj [("__integration_type__", Json.str "shopify"),
        ("id", Json.str "123")])] "shopify" ≠
      some (Json.obj [("__integration_type__", Json.str "other")]) := by
  refine ⟨rfl, rfl, rfl, ?_⟩
  intro h
  have h' : (some (Json.obj [("__integration_type__", Json.str "shopify"),
      ("id", Json.str "123")]) : Option Json) =
      some (Json.obj [("__integration_type__", Json.str "other")]) := h
  injection h' with h1
  injection h1 with h2
  exact absurd (congrArg List.length h2) (by decide)

/-- Claim C10 (amended): provided the integrations mapping's original keys
do not include the literal `"shopify"`, `parse_response` modifies only the
`customer.integrations` sub-mapping: every top-level field other than
`customer` and every `customer` field other than `integrations` is
unchanged, and every integration entry whose discriminator is not
`"shopify"` is still present under its original key with unchanged
contents.  Without that proviso the entry stored at `"shopify"` can be
overwritten by a relocated matching entry. -/
theorem claim10_amended {respF custF integF : List (String × Json)}
    (hcust : getField respF "customer" = some (Json.obj custF))
    (hinteg : getField custF "integrations" = some (Json.obj integF))
    (hnd : (keysOf integF).Nodup)
    (hsh : "shopify" ∉ keysOf integF)
    (hwf : ∀ e ∈ integF, entryWellFormed e.2 = true) :
    ∃ out,
      parse_response (Json.obj respF) = .ok (Json.obj out) ∧
      (∀ f, f ≠ "customer" → getField out f = getField respF f) ∧
      ∃ custF', getField out "customer" = some (Json.obj custF') ∧
        (∀ g, g ≠ "integrations" → getField custF' g = getField custF g) ∧
        ∃ integF', getField custF' "integrations" = some (Json.obj integF') ∧
          ∀ key v, getField integF key = some v → isShopifyEntry v = false →
            getField integF' key = some v := by
  refine ⟨_, parse_response_eq hcust hinteg hnd hsh hwf,
    fun f hf => getField_setField_ne _ hf,
    _, getField_setField_self respF "customer" _,
    fun g hg => getField_setField_ne _ hg,
    _, getField_setField_self custF "integrations" _, ?_⟩
  intro key v hv hnm
  have hkmem : (key, v) ∈ integF := mem_of_getField hv
  have hfil : getField (nonMatch integF) key = getField integF key := by
    apply getField_filter
    intro w hw
    have hwv : w = v := nodup_keys_unique hnd hw hkmem
    subst hwv
    simp [hnm]
  exact getField_append_left (hfil.trans hv)

/-- Claim C10, witness of the amended theorem at a concrete response with a
matching entry under `"55"` and a non-matching one under `"77"`. -/
theorem claim10_witness :
    ∃ out,
      parse_response (Json.obj [("id", Json.num 9), ("customer", Json.obj [
          ("email", Json.str "x"),
          ("integrations", Json.obj [
            ("55", Json.obj [("__integration_type__", Json.str "shopify")]),
            ("77", Json.obj [("__integration_type__", Json.str "zendesk")])])])]) =
        .ok (Json.obj out) ∧
      (∀ f, f ≠ "customer" → getField out f =
        getField [("id", Json.num 9), ("customer", Json.obj [
          ("email", Json.str "x"),
          ("integrations", Json.obj [
            ("55", Json.obj [("__integration_type__", Json.str "shopify")]),
            ("77", Json.obj [("__integration_type__", Json.str "zendesk")])])])] f) ∧
      ∃ custF', getField out "customer" = some (Json.obj custF') ∧
        (∀ g, g ≠ "integrations" → getField custF' g =
          getField [("email", Json.str "x"),
            ("integrations", Json.obj [
              ("55", Json.obj [("__integration_type__", Json.str "shopify")]),
              ("77", Json.obj [("__integration_type__", Json.str "zendesk")])])] g) ∧
        ∃ integF', getField custF' "integrations" = some (Json.obj integF') ∧
          ∀ key v,
            getField [("55", Json.obj [("__integration_type__", Json.str "shopify")]),
              ("77", Json.obj [("__integration_type__", Json.str "zendesk")])] key =
              some v →
            isShopifyEntry v = false → getField integF' key = some v :=
  claim10_amended rfl rfl (by decide) (by decide)
    (by
      rintro e he
      rw [List.mem_cons, List.mem_singleton] at he
      rcases he with rfl | rfl <;> rfl)

end TapGorgias
